import Mathlib

/-!
# Dingtalk notifier (`notify/dingtalk.go`)

A shallow embedding of `Dingtalk.Notify` and `Dingtalk.retry`.

* Go's `error` interface value is `Option GoError` (`nil` is `none`).
* Go's `int` status code is an `Int`; `/` is `Int.tdiv` (truncation toward zero).
* Everything `Notify` calls outside `dingtalk.go` (template engine, JSON writer,
  `http.NewRequest`, `commoncfg.NewClientFromConfig`, `Client.Do`) is a field of
  `Env`, so every outcome of every call is covered by quantifying over `Env`.
* Side effects are recorded, in program order, in a trace of `Effect`s.
* A rendered template is a `GoString`, a sequence of bytes: `encoding/json`
  treats bytes that are not valid UTF-8 in its own way, so the payload needs
  them. Texts that `Notify` only passes along or concatenates are `String`s.
-/

namespace Dingtalk

/-- A non-nil Go `error`; `msg` is what `Error()` returns. -/
structure GoError where
  msg : String
  deriving DecidableEq, Repr

/-- `fmt.Errorf` always returns a non-nil error carrying the formatted text. -/
def Errorf (text : String) : Option GoError := some ⟨text⟩

/-- The verb `%v` applied to a Go `int`: signed decimal. -/
def fmtInt (n : Int) : String := toString n

/-- Substring test on strings (`strings.Contains`), as a proposition. -/
def Contains (s sub : String) : Prop := sub.data <:+: s.data

/-! ## Go strings and their JSON text -/

/-- One byte of a Go string. -/
abbrev Byte := Fin 256

/-- A Go `string`: an arbitrary sequence of bytes, valid UTF-8 or not. -/
structure GoString where
  bytes : List Byte
  deriving DecidableEq, Repr

/-- The byte with the given value. -/
def byte (n : Nat) : Byte := ⟨n % 256, Nat.mod_lt n (by decide)⟩

/-- UTF-8 encoding of one character. -/
def encodeRune (c : Char) : List Byte :=
  if c.toNat < 0x80 then [byte c.toNat]
  else if c.toNat < 0x800 then [byte (0xC0 + c.toNat / 64), byte (0x80 + c.toNat % 64)]
  else if c.toNat < 0x10000 then
    [byte (0xE0 + c.toNat / 4096), byte (0x80 + c.toNat / 64 % 64), byte (0x80 + c.toNat % 64)]
  else
    [byte (0xF0 + c.toNat / 262144), byte (0x80 + c.toNat / 4096 % 64),
     byte (0x80 + c.toNat / 64 % 64), byte (0x80 + c.toNat % 64)]

/-- UTF-8 encoding of a text. -/
def encodeRunes : List Char → List Byte
  | [] => []
  | c :: cs => encodeRune c ++ encodeRunes cs

/-- The Go string holding the UTF-8 encoding of a text. -/
def GoString.ofString (s : String) : GoString := ⟨encodeRunes s.data⟩

/-- The rune `utf8.RuneError`, U+FFFD. -/
def RuneError : Char := Char.ofNat 0xFFFD

/-- The tables `first` and `acceptRanges` of `unicode/utf8` for a leading byte
`≥ 0x80`: width of the encoding and the range accepted for the second byte;
`none` for a byte that starts no encoding. -/
def first (s0 : Nat) : Option (Nat × Nat × Nat) :=
  if s0 < 0xC2 then none
  else if s0 < 0xE0 then some (2, 0x80, 0xBF)
  else if s0 = 0xE0 then some (3, 0xA0, 0xBF)
  else if s0 = 0xED then some (3, 0x80, 0x9F)
  else if s0 < 0xF0 then some (3, 0x80, 0xBF)
  else if s0 = 0xF0 then some (4, 0x90, 0xBF)
  else if s0 < 0xF4 then some (4, 0x80, 0xBF)
  else if s0 = 0xF4 then some (4, 0x80, 0x8F)
  else none

/-- The function `utf8.DecodeRuneInString`: the first rune and its width in
bytes; an invalid or truncated encoding gives `(RuneError, 1)`. -/
def decodeRune (s : List Byte) : Char × Nat :=
  match s with
  | [] => (RuneError, 0)
  | s0 :: t =>
    if s0.val < 0x80 then (Char.ofNat s0.val, 1)
    else
      match first s0.val with
      | none => (RuneError, 1)
      | some (sz, lo, hi) =>
        if s.length < sz then (RuneError, 1)
        else
          match t with
          | [] => (RuneError, 1)
          | s1 :: t1 =>
            if s1.val < lo ∨ hi < s1.val then (RuneError, 1)
            else if sz ≤ 2 then (Char.ofNat (s0.val % 32 * 64 + s1.val % 64), 2)
            else
              match t1 with
              | [] => (RuneError, 1)
              | s2 :: t2 =>
                if s2.val < 0x80 ∨ 0xBF < s2.val then (RuneError, 1)
                else if sz ≤ 3 then
                  (Char.ofNat (s0.val % 16 * 4096 + s1.val % 64 * 64 + s2.val % 64), 3)
                else
                  match t2 with
                  | [] => (RuneError, 1)
                  | s3 :: _ =>
                    if s3.val < 0x80 ∨ 0xBF < s3.val then (RuneError, 1)
                    else
                      (Char.ofNat (s0.val % 8 * 262144 + s1.val % 64 * 4096
                        + s2.val % 64 * 64 + s3.val % 64), 4)

/-- The loop of `encoding/json` over a string value, at the level of the text
it writes: rune by rune, every byte that is not part of a valid encoding
becoming U+FFFD. The fuel is the number of bytes left. -/
def coerceLoop : Nat → List Byte → List Char
  | 0, _ => []
  | fuel + 1, s =>
    match s with
    | [] => []
    | _ :: _ => (decodeRune s).1 :: coerceLoop fuel (s.drop (decodeRune s).2)

/-- The text `encoding/json` gives a Go string as its JSON value. -/
def GoString.toValidUTF8 (s : GoString) : String := ⟨coerceLoop s.bytes.length s.bytes⟩

/-! ## Wire payload (lines 87-98) -/

/-- The struct `dingTalkNotificationMarkdown`. -/
structure dingTalkNotificationMarkdown where
  Title : GoString
  Text : GoString
  deriving DecidableEq, Repr

/-- The struct `dingTalkNotification`; the pointer field is an `Option`. -/
structure dingTalkNotification where
  MessageType : GoString
  Markdown : Option dingTalkNotificationMarkdown
  deriving DecidableEq, Repr

/-- JSON values, as far as the payload needs them. -/
inductive JSON where
  | null : JSON
  | str : String → JSON
  | obj : List (String × JSON) → JSON

/-- A struct tag of the form `json:"name"` or `json:"name,omitempty"`. -/
structure FieldTag where
  name : String
  omitempty : Bool

/-- A Go string as `encoding/json` marshals it: a JSON string whose text is the
Go string coerced to valid UTF-8. -/
def GoString.toJSON (s : GoString) : JSON := JSON.str s.toValidUTF8

/-- One struct field as `encoding/json` emits it: dropped when the tag says
`omitempty` and the Go value is empty (`""`, nil pointer), kept otherwise. -/
def encodeField (tag : FieldTag) (isEmpty : Bool) (v : JSON) : List (String × JSON) :=
  if tag.omitempty && isEmpty then [] else [(tag.name, v)]

/-- Marshalling of `dingTalkNotificationMarkdown` (tags `title`, `text`). -/
def dingTalkNotificationMarkdown.toJSON (m : dingTalkNotificationMarkdown) : JSON :=
  JSON.obj (encodeField ⟨"title", false⟩ m.Title.bytes.isEmpty m.Title.toJSON
    ++ encodeField ⟨"text", false⟩ m.Text.bytes.isEmpty m.Text.toJSON)

/-- Marshalling of `dingTalkNotification` (tags `msgtype`, `markdown,omitempty`). -/
def dingTalkNotification.toJSON (n : dingTalkNotification) : JSON :=
  JSON.obj (encodeField ⟨"msgtype", false⟩ n.MessageType.bytes.isEmpty n.MessageType.toJSON
    ++ encodeField ⟨"markdown", true⟩ n.Markdown.isNone
        (match n.Markdown with
         | none => JSON.null
         | some m => m.toJSON))

/-- The keys of a JSON object, in order; no keys for a non-object. -/
def JSON.keys : JSON → List String
  | JSON.obj members => members.map Prod.fst
  | _ => []

/-- The payload literal of lines 44-50. -/
def buildMsg (title content : GoString) : dingTalkNotification :=
  { MessageType := GoString.ofString "markdown"
    Markdown := some { Title := title, Text := content } }

/-! ## Configuration, requests, responses -/

/-- The fields of `config.DingtalkConfig` that `Notify` reads. -/
structure DingtalkConfig (HTTPCfg : Type) where
  HTTPConfig : HTTPCfg
  WebhookURL : String
  Title : String
  Content : String

/-- An `http.Request`, as far as `Notify` touches it. -/
structure Request (Ctx : Type) where
  Method : String
  URL : String
  Body : String
  Header : List (String × String)
  ctx : Option Ctx

/-- The call `req.Header.Set(k, v)`: replaces any value stored under `k`. -/
def Request.HeaderSet {Ctx : Type} (req : Request Ctx) (k v : String) : Request Ctx :=
  { req with Header := (k, v) :: req.Header.filter (fun kv => kv.1 != k) }

/-- The call `req.WithContext(ctx)`. -/
def Request.WithContext {Ctx : Type} (req : Request Ctx) (ctx : Ctx) : Request Ctx :=
  { req with ctx := some ctx }

/-- State of a response body: bytes not yet read and how often `Close` ran. -/
structure Body where
  unread : Nat
  closed : Nat
  deriving DecidableEq, Repr

/-- An `http.Response`, as far as `Notify` touches it. -/
structure Response where
  StatusCode : Int
  Body : Body
  deriving DecidableEq, Repr

/-- Effects of one `Notify` call, in program order. -/
inductive Effect (Ctx : Type) where
  | Send : Request Ctx → Effect Ctx
  | BodyRead : Effect Ctx
  | BodyClose : Effect Ctx

/-- Is the effect a request handed to the HTTP client? -/
def Effect.isSend {Ctx : Type} : Effect Ctx → Bool
  | Effect.Send _ => true
  | _ => false

/-- Is the effect a `Close` of the response body? -/
def Effect.isClose {Ctx : Type} : Effect Ctx → Bool
  | Effect.BodyClose => true
  | _ => false

/-- Is the effect a read of the response body up to end of stream? -/
def Effect.isRead {Ctx : Type} : Effect Ctx → Bool
  | Effect.BodyRead => true
  | _ => false

/-- One effect applied to the response-body state. -/
def Body.step {Ctx : Type} (b : Body) : Effect Ctx → Body
  | Effect.Send _ => b
  | Effect.BodyRead => { b with unread := 0 }
  | Effect.BodyClose => { b with closed := b.closed + 1 }

/-- A trace of effects applied to the response-body state. -/
def Body.run {Ctx : Type} (b : Body) (trace : List (Effect Ctx)) : Body :=
  trace.foldl Body.step b

/-- An `http.Client`: its `Do` method either fails or yields a response. -/
structure Client (Ctx : Type) where
  Do : Request Ctx → Except GoError Response

/-- Everything `Notify` calls that lives outside `dingtalk.go`. -/
structure Env (Ctx Alert TData HTTPCfg : Type) where
  -- d.tmpl.Data(receiverName(ctx, d.logger), groupLabels(ctx, d.logger), as...)
  Data : Ctx → List Alert → TData
  -- tmpl.ExecuteTextString(text, data)
  ExecuteTextString : String → TData → Except GoError GoString
  -- json.NewEncoder(&buf).Encode(v): the bytes written, or the error
  Encode : JSON → Except GoError String
  -- http.NewRequest(method, url, body)
  NewRequest : String → String → String → Except GoError (Request Ctx)
  -- commoncfg.NewClientFromConfig(cfg, name)
  NewClientFromConfig : HTTPCfg → String → Except GoError (Client Ctx)

/-- Modelled from the spec: the helper `tmplText` is defined outside
`dingtalk.go`. It gives the closure that renders one template against the data;
every template is rendered even when an earlier one failed, the first failure is
the one reported through `tmplErr`, and a failed rendering yields the empty
string. The closure's captured `*error` is threaded explicitly. -/
def tmplText {TData : Type} (exec : String → TData → Except GoError GoString) (data : TData)
    (tmplErr : Option GoError) (name : String) : GoString × Option GoError :=
  match exec name data with
  | Except.ok s => (s, tmplErr)
  | Except.error e =>
    match tmplErr with
    | some first => (⟨[]⟩, some first)
    | none => (⟨[]⟩, some e)

/-- What one `Notify` call returns, together with the effects it performed. -/
structure Outcome (Ctx : Type) where
  retryable : Bool
  err : Option GoError
  trace : List (Effect Ctx)

/-- The method `Dingtalk.retry` (lines 77-85). -/
def retry {HTTPCfg : Type} (conf : DingtalkConfig HTTPCfg) (statusCode : Int) :
    Bool × Option GoError :=
  if statusCode.tdiv 100 != 2 then
    (statusCode.tdiv 100 == 5,
      Errorf ("unexpected status code " ++ fmtInt statusCode ++ " from " ++ conf.WebhookURL))
  else
    (false, none)

/-- The method `Dingtalk.Notify` (lines 31-75). -/
def Notify {Ctx Alert TData HTTPCfg : Type} (env : Env Ctx Alert TData HTTPCfg)
    (conf : DingtalkConfig HTTPCfg) (ctx : Ctx) (as : List Alert) : Outcome Ctx :=
  let data := env.Data ctx as
  let r1 := tmplText env.ExecuteTextString data none conf.Title
  let title := r1.1
  let r2 := tmplText env.ExecuteTextString data r1.2 conf.Content
  let content := r2.1
  match r2.2 with
  | some tmplErr =>
    ⟨false, Errorf ("failed to template 'title' or 'content': " ++ tmplErr.msg), []⟩
  | none =>
    let msg := buildMsg title content
    match env.Encode msg.toJSON with
    | Except.error err => ⟨false, some err, []⟩
    | Except.ok buf =>
      match env.NewRequest "POST" conf.WebhookURL buf with
      | Except.error err => ⟨true, some err, []⟩
      | Except.ok req0 =>
        let req := req0.HeaderSet "Content-Type" "application/json"
        match env.NewClientFromConfig conf.HTTPConfig "dingtalk" with
        | Except.error err => ⟨false, some err, []⟩
        | Except.ok c =>
          let sent := req.WithContext ctx
          match c.Do sent with
          | Except.error err => ⟨true, some err, [Effect.Send sent]⟩
          | Except.ok resp =>
            let v := retry conf resp.StatusCode
            ⟨v.1, v.2, [Effect.Send sent, Effect.BodyClose]⟩

/-- Number of requests handed to the HTTP client during a call. -/
def Outcome.sendCount {Ctx : Type} (o : Outcome Ctx) : Nat :=
  (o.trace.filter Effect.isSend).length

/-- Number of `Close` calls on the response body during a call. -/
def Outcome.closeCount {Ctx : Type} (o : Outcome Ctx) : Nat :=
  (o.trace.filter Effect.isClose).length

/-! ## Example inputs -/

/-- A client whose round trip succeeds with the given response. -/
def okClient (resp : Response) : Client Unit := ⟨fun _ => Except.ok resp⟩

/-- A client whose round trip fails with the given error. -/
def failClient (e : GoError) : Client Unit := ⟨fun _ => Except.error e⟩

/-- A template engine for the examples: the action `{{ "\xff" }}` renders the
single byte 0xFF, as `text/template` does for that string constant; any other
template is taken as plain text and renders as itself. -/
def sampleExecute (text : String) (_ : Unit) : Except GoError GoString :=
  if text = "\x7b\x7b \"\\xff\" \x7d\x7d" then Except.ok ⟨[0xFF]⟩
  else Except.ok (GoString.ofString text)

/-- The call `http.NewRequest` for the examples: a URL that starts with a colon
has no protocol scheme and is rejected, any other URL is accepted. -/
def sampleNewRequest (method url body : String) : Except GoError (Request Unit) :=
  if url.data.head? = some ':' then
    Except.error ⟨"parse " ++ url ++ ": missing protocol scheme"⟩
  else Except.ok ⟨method, url, body, [], none⟩

/-- An environment in which the client is `c` and the JSON writer and the
client construction succeed. -/
def okEnv (c : Client Unit) : Env Unit Unit Unit Unit where
  Data := fun _ _ => ()
  ExecuteTextString := sampleExecute
  Encode := fun _ => Except.ok "payload"
  NewRequest := sampleNewRequest
  NewClientFromConfig := fun _ _ => Except.ok c

/-- A configuration used in the examples. -/
def sampleConf : DingtalkConfig Unit := ⟨(), "http://hook", "t", "c"⟩

/-- A configuration whose webhook URL lacks the protocol scheme. -/
def badURLConf : DingtalkConfig Unit := ⟨(), "://hook", "t", "c"⟩

/-- A configuration whose title template is `{{ "\xff" }}`. -/
def invalidTitleConf : DingtalkConfig Unit :=
  ⟨(), "http://hook", "\x7b\x7b \"\\xff\" \x7d\x7d", "c"⟩

/-- An environment whose template engine rejects every template. -/
def renderFailEnv : Env Unit Unit Unit Unit :=
  { okEnv (okClient ⟨200, ⟨0, 0⟩⟩) with
    ExecuteTextString := fun _ _ => Except.error ⟨"unexpected EOF"⟩ }

/-! ## UTF-8: decoding undoes encoding -/

/-- A character is a Unicode scalar value: below the surrogates, or above them
and at most U+10FFFF. -/
theorem char_range (c : Char) :
    c.toNat < 0xD800 ∨ (0xDFFF < c.toNat ∧ c.toNat < 0x110000) := by
  have h := c.valid
  simp only [UInt32.isValidChar, Nat.isValidChar] at h
  exact h

/-- Decoding the encoding of a character gives the character back, and the
width of its encoding, whatever bytes follow. -/
theorem decodeRune_encodeRune (c : Char) (tail : List Byte) :
    decodeRune (encodeRune c ++ tail) = (c, (encodeRune c).length) := by
  have hr := char_range c
  have hc : Char.ofNat c.toNat = c := Char.ofNat_toNat c
  unfold encodeRune
  generalize c.toNat = n at hr hc ⊢
  by_cases h1 : n < 0x80
  · have hb : n % 256 = n := by omega
    simp [h1, decodeRune, byte, hb, hc]
  · by_cases h2 : n < 0x800
    · have e0 : (0xC0 + n / 64) % 256 = 0xC0 + n / 64 := by omega
      have e1 : (0x80 + n % 64) % 256 = 0x80 + n % 64 := by omega
      have f : first (0xC0 + n / 64) = some (2, 0x80, 0xBF) := by
        unfold first
        rw [if_neg (by omega), if_pos (by omega)]
      have r0 : (0xC0 + n / 64) % 32 = n / 64 := by omega
      have r1 : (0x80 + n) % 64 = n % 64 := by omega
      have r : n / 64 * 64 + n % 64 = n := by omega
      simp [h1, h2, decodeRune, byte, e0, e1, f, r0, r1, r, hc]
      split_ifs <;> first | omega | rfl
    · by_cases h3 : n < 0x10000
      · have e0 : (0xE0 + n / 4096) % 256 = 0xE0 + n / 4096 := by omega
        have e1 : (0x80 + n / 64 % 64) % 256 = 0x80 + n / 64 % 64 := by omega
        have e2 : (0x80 + n % 64) % 256 = 0x80 + n % 64 := by omega
        have r0 : (0xE0 + n / 4096) % 16 = n / 4096 := by omega
        have r1 : (0x80 + n / 64) % 64 = n / 64 % 64 := by omega
        have r2 : (0x80 + n) % 64 = n % 64 := by omega
        have r : n / 4096 * 4096 + n / 64 % 64 * 64 + n % 64 = n := by omega
        have f : ∃ lo hi, first (0xE0 + n / 4096) = some (3, lo, hi) ∧
            lo ≤ 0x80 + n / 64 % 64 ∧ 0x80 + n / 64 % 64 ≤ hi := by
          unfold first
          by_cases k0 : n / 4096 = 0
          · exact ⟨0xA0, 0xBF, by simp [k0], by omega, by omega⟩
          · by_cases k1 : n / 4096 = 13
            · refine ⟨0x80, 0x9F, by simp [k1], by omega, by omega⟩
            · refine ⟨0x80, 0xBF, ?_, by omega, by omega⟩
              rw [if_neg (by omega), if_neg (by omega), if_neg (by omega), if_neg (by omega),
                if_pos (by omega)]
        obtain ⟨lo, hi, f, hlo, hhi⟩ := f
        simp [h1, h2, h3, decodeRune, byte, e0, e1, e2, f, r0, r1, r2, r, hc]
        split_ifs <;> first | omega | rfl
      · have e0 : (0xF0 + n / 262144) % 256 = 0xF0 + n / 262144 := by omega
        have e1 : (0x80 + n / 4096 % 64) % 256 = 0x80 + n / 4096 % 64 := by omega
        have e2 : (0x80 + n / 64 % 64) % 256 = 0x80 + n / 64 % 64 := by omega
        have e3 : (0x80 + n % 64) % 256 = 0x80 + n % 64 := by omega
        have r0 : (0xF0 + n / 262144) % 8 = n / 262144 := by omega
        have r1 : (0x80 + n / 4096) % 64 = n / 4096 % 64 := by omega
        have r2 : (0x80 + n / 64) % 64 = n / 64 % 64 := by omega
        have r3 : (0x80 + n) % 64 = n % 64 := by omega
        have r : n / 262144 * 262144 + n / 4096 % 64 * 4096 + n / 64 % 64 * 64 + n % 64 = n := by
          omega
        have f : ∃ lo hi, first (0xF0 + n / 262144) = some (4, lo, hi) ∧
            lo ≤ 0x80 + n / 4096 % 64 ∧ 0x80 + n / 4096 % 64 ≤ hi := by
          unfold first
          by_cases k0 : n / 262144 = 0
          · exact ⟨0x90, 0xBF, by simp [k0], by omega, by omega⟩
          · by_cases k1 : n / 262144 = 4
            · refine ⟨0x80, 0x8F, by simp [k1], by omega, by omega⟩
            · refine ⟨0x80, 0xBF, ?_, by omega, by omega⟩
              rw [if_neg (by omega), if_neg (by omega), if_neg (by omega), if_neg (by omega),
                if_neg (by omega), if_neg (by omega), if_pos (by omega)]
        obtain ⟨lo, hi, f, hlo, hhi⟩ := f
        simp [h1, h2, h3, decodeRune, byte, e0, e1, e2, e3, f, r0, r1, r2, r3, r, hc]
        split_ifs <;> first | omega | rfl

/-- Every character takes at least one byte. -/
theorem encodeRune_length_pos (c : Char) : 1 ≤ (encodeRune c).length := by
  unfold encodeRune
  split_ifs <;> simp

/-- On the encoding of a text the loop returns the text, given fuel for every
byte. -/
theorem coerceLoop_encodeRunes (cs : List Char) :
    ∀ fuel, (encodeRunes cs).length ≤ fuel → coerceLoop fuel (encodeRunes cs) = cs := by
  induction cs with
  | nil =>
    intro fuel _
    cases fuel <;> rfl
  | cons c cs ih =>
    intro fuel hf
    have hp := encodeRune_length_pos c
    simp only [encodeRunes, List.length_append] at hf
    obtain ⟨f, rfl⟩ : ∃ f, fuel = f + 1 := ⟨fuel - 1, by omega⟩
    have hne : ∃ b t, encodeRune c ++ encodeRunes cs = b :: t := by
      cases h : encodeRune c ++ encodeRunes cs with
      | nil =>
        have := congrArg List.length h
        rw [List.length_append, List.length_nil] at this
        omega
      | cons b t => exact ⟨b, t, rfl⟩
    obtain ⟨b, t, hbt⟩ := hne
    have hd := decodeRune_encodeRune c (encodeRunes cs)
    simp only [encodeRunes]
    rw [hbt] at hd ⊢
    simp only [coerceLoop, hd]
    rw [← hbt, List.drop_left, ih f (by omega)]

/-- A text survives the trip through UTF-8 and back. -/
theorem toValidUTF8_ofString (s : String) : (GoString.ofString s).toValidUTF8 = s := by
  simp only [GoString.toValidUTF8, GoString.ofString]
  rw [coerceLoop_encodeRunes s.data _ (Nat.le_refl _)]

/-- On a non-empty input the decoder consumes at least one byte. -/
theorem decodeRune_width_pos (b : Byte) (t : List Byte) : 1 ≤ (decodeRune (b :: t)).2 := by
  unfold decodeRune
  simp only
  repeat' split
  all_goals simp

/-- More fuel than bytes changes nothing: the loop always runs to the end of
the string. -/
theorem coerceLoop_fuel (f1 : Nat) :
    ∀ (f2 : Nat) (s : List Byte), s.length ≤ f1 → s.length ≤ f2 →
      coerceLoop f1 s = coerceLoop f2 s := by
  induction f1 with
  | zero =>
    intro f2 s h1 _
    have : s = [] := List.length_eq_zero.mp (by omega)
    subst this
    cases f2 <;> rfl
  | succ f1 ih =>
    intro f2 s h1 h2
    cases s with
    | nil => cases f2 <;> rfl
    | cons b t =>
      obtain ⟨g, rfl⟩ : ∃ g, f2 = g + 1 := ⟨f2 - 1, by simp at h2; omega⟩
      have hw := decodeRune_width_pos b t
      simp only [coerceLoop]
      congr 1
      have hl : ((b :: t).drop (decodeRune (b :: t)).2).length ≤ t.length := by
        simp only [List.length_drop, List.length_cons]
        omega
      simp only [List.length_cons] at h1 h2
      exact ih g _ (by omega) (by omega)


/-! ## Status-code arithmetic -/

/-- Truncated division by 100 hits a positive quotient `k` exactly on the
hundred starting at `100 * k`; negative codes never do. -/
theorem tdiv_hundred_eq_iff (c k : Int) (hk : 0 < k) :
    c.tdiv 100 = k ↔ 100 * k ≤ c ∧ c < 100 * k + 100 := by
  rcases Int.le_total 0 c with hc | hc
  · rw [Int.tdiv_eq_ediv hc (by decide)]
    omega
  · have hneg : (0 : Int) ≤ -c := by omega
    have h1 : (-c).tdiv 100 = -(c.tdiv 100) := Int.neg_tdiv c 100
    have h2 : 0 ≤ (-c).tdiv 100 := Int.tdiv_nonneg hneg (by decide)
    constructor
    · intro h
      omega
    · intro h
      omega

/-- Unfolding of `retry` on a status code inside `[200, 300)`. -/
theorem retry_of_2xx {HTTPCfg : Type} (conf : DingtalkConfig HTTPCfg) (c : Int)
    (h : 200 ≤ c ∧ c < 300) : retry conf c = (false, none) := by
  have h2 : c.tdiv 100 = 2 := (tdiv_hundred_eq_iff c 2 (by decide)).2 (by omega)
  simp [retry, h2]

/-- Unfolding of `retry` on a status code outside `[200, 300)`. -/
theorem retry_of_not_2xx {HTTPCfg : Type} (conf : DingtalkConfig HTTPCfg) (c : Int)
    (h : ¬ (200 ≤ c ∧ c < 300)) :
    retry conf c = (decide (500 ≤ c ∧ c < 600),
      some ⟨"unexpected status code " ++ fmtInt c ++ " from " ++ conf.WebhookURL⟩) := by
  have h2 : c.tdiv 100 ≠ 2 := fun e => h (by
    have := (tdiv_hundred_eq_iff c 2 (by decide)).1 e
    omega)
  have h5 : (c.tdiv 100 == 5) = decide (500 ≤ c ∧ c < 600) := by
    by_cases hc : 500 ≤ c ∧ c < 600
    · have : c.tdiv 100 = 5 := (tdiv_hundred_eq_iff c 5 (by decide)).2 (by omega)
      simp [this, hc]
    · have : c.tdiv 100 ≠ 5 := fun e => hc (by
        have := (tdiv_hundred_eq_iff c 5 (by decide)).1 e
        omega)
      simp [this, hc]
  simp only [retry, Errorf]
  rw [if_pos (by simpa using h2), h5]

/-! ## Unfolding `Notify` along each exit path -/

/-- Exit at line 41: some template failed to render. -/
theorem notify_of_render_error {Ctx Alert TData HTTPCfg : Type}
    (env : Env Ctx Alert TData HTTPCfg) (conf : DingtalkConfig HTTPCfg) (ctx : Ctx)
    (as : List Alert)
    (h : (∃ e, env.ExecuteTextString conf.Title (env.Data ctx as) = Except.error e) ∨
         (∃ e, env.ExecuteTextString conf.Content (env.Data ctx as) = Except.error e)) :
    ∃ e : GoError, Notify env conf ctx as =
      ⟨false, some ⟨"failed to template 'title' or 'content': " ++ e.msg⟩, []⟩ := by
  rcases hT : env.ExecuteTextString conf.Title (env.Data ctx as) with e1 | t
  · rcases hC : env.ExecuteTextString conf.Content (env.Data ctx as) with e2 | b
    · exact ⟨e1, by simp only [Notify, tmplText, Errorf, hT, hC]⟩
    · exact ⟨e1, by simp only [Notify, tmplText, Errorf, hT, hC]⟩
  · rcases hC : env.ExecuteTextString conf.Content (env.Data ctx as) with e2 | b
    · exact ⟨e2, by simp only [Notify, tmplText, Errorf, hT, hC]⟩
    · rcases h with ⟨e, he⟩ | ⟨e, he⟩
      · rw [hT] at he
        cases he
      · rw [hC] at he
        cases he

/-- Past line 42: both templates rendered, so `Notify` goes on to serialize. -/
theorem notify_of_render_ok {Ctx Alert TData HTTPCfg : Type}
    (env : Env Ctx Alert TData HTTPCfg) (conf : DingtalkConfig HTTPCfg) (ctx : Ctx)
    (as : List Alert) (title content : GoString)
    (hT : env.ExecuteTextString conf.Title (env.Data ctx as) = Except.ok title)
    (hC : env.ExecuteTextString conf.Content (env.Data ctx as) = Except.ok content) :
    Notify env conf ctx as =
      match env.Encode (buildMsg title content).toJSON with
      | Except.error err => ⟨false, some err, []⟩
      | Except.ok buf =>
        match env.NewRequest "POST" conf.WebhookURL buf with
        | Except.error err => ⟨true, some err, []⟩
        | Except.ok req0 =>
          match env.NewClientFromConfig conf.HTTPConfig "dingtalk" with
          | Except.error err => ⟨false, some err, []⟩
          | Except.ok c =>
            match c.Do ((req0.HeaderSet "Content-Type" "application/json").WithContext ctx) with
            | Except.error err => ⟨true, some err,
                [Effect.Send ((req0.HeaderSet "Content-Type" "application/json").WithContext ctx)]⟩
            | Except.ok resp =>
              ⟨(retry conf resp.StatusCode).1, (retry conf resp.StatusCode).2,
                [Effect.Send ((req0.HeaderSet "Content-Type" "application/json").WithContext ctx),
                 Effect.BodyClose]⟩ := by
  simp only [Notify, tmplText, hT, hC]

/-- Exit at line 74: the round trip succeeded and `retry` decides. -/
theorem notify_of_response {Ctx Alert TData HTTPCfg : Type}
    (env : Env Ctx Alert TData HTTPCfg) (conf : DingtalkConfig HTTPCfg) (ctx : Ctx)
    (as : List Alert) (title content : GoString) (buf : String) (req0 : Request Ctx) (c : Client Ctx)
    (resp : Response)
    (hT : env.ExecuteTextString conf.Title (env.Data ctx as) = Except.ok title)
    (hC : env.ExecuteTextString conf.Content (env.Data ctx as) = Except.ok content)
    (hE : env.Encode (buildMsg title content).toJSON = Except.ok buf)
    (hR : env.NewRequest "POST" conf.WebhookURL buf = Except.ok req0)
    (hN : env.NewClientFromConfig conf.HTTPConfig "dingtalk" = Except.ok c)
    (hD : c.Do ((req0.HeaderSet "Content-Type" "application/json").WithContext ctx)
            = Except.ok resp) :
    Notify env conf ctx as =
      ⟨(retry conf resp.StatusCode).1, (retry conf resp.StatusCode).2,
        [Effect.Send ((req0.HeaderSet "Content-Type" "application/json").WithContext ctx),
         Effect.BodyClose]⟩ := by
  rw [notify_of_render_ok env conf ctx as title content hT hC]
  simp only [hE, hR, hN, hD]

/-- The status text contains the formatted code and the URL it was built from. -/
theorem contains_code_and_url (a code b url : String) :
    Contains (a ++ code ++ b ++ url) code ∧ Contains (a ++ code ++ b ++ url) url := by
  constructor
  · refine ⟨a.data, (b ++ url).data, ?_⟩
    simp [String.data_append]
  · refine ⟨(a ++ code ++ b).data, [], ?_⟩
    simp [String.data_append]

/-- The rendering-failure text names the `title` template, whatever follows. -/
theorem contains_title (rest : String) :
    Contains ("failed to template 'title' or 'content': " ++ rest) "title" := by
  refine ⟨"failed to template '".data, ("' or 'content': " ++ rest).data, ?_⟩
  have h : ("failed to template 'title' or 'content': ").data
      = "failed to template '".data ++ "title".data ++ "' or 'content': ".data := by decide
  simp only [String.data_append, h, List.append_assoc]
  rfl

/-! ## Claims -/

/-- C1: for every integer status code `c`, negative and `≥ 600` included,
`retry c` reports retryable exactly when `500 ≤ c < 600` and returns a nil
error exactly when `200 ≤ c < 300`, with `/` truncating toward zero. -/
theorem retry_classifies {HTTPCfg : Type} (conf : DingtalkConfig HTTPCfg) (c : Int) :
    ((retry conf c).1 = true ↔ 500 ≤ c ∧ c < 600) ∧
    ((retry conf c).2 = none ↔ 200 ≤ c ∧ c < 300) := by
  by_cases h : 200 ≤ c ∧ c < 300
  · rw [retry_of_2xx conf c h]
    constructor
    · constructor
      · intro hf
        cases hf
      · intro hc
        omega
    · simp [h]
  · rw [retry_of_not_2xx conf c h]
    constructor
    · simp
    · simp [h]

/-- C2, evaluated at a webhook URL without protocol scheme: rendering and
serialization succeed, `http.NewRequest` rejects `://hook` (and accepts
`http://hook`), no request is sent, and `Notify` returns the non-nil error with
`retryable = true` where the claim says `false`. -/
theorem newRequest_failure_is_retryable :
    (okEnv (okClient ⟨200, ⟨0, 0⟩⟩)).NewRequest "POST" sampleConf.WebhookURL "payload"
      = Except.ok ⟨"POST", "http://hook", "payload", [], none⟩ ∧
    (okEnv (okClient ⟨200, ⟨0, 0⟩⟩)).ExecuteTextString badURLConf.Title ()
      = Except.ok (GoString.ofString "t") ∧
    (okEnv (okClient ⟨200, ⟨0, 0⟩⟩)).ExecuteTextString badURLConf.Content ()
      = Except.ok (GoString.ofString "c") ∧
    (okEnv (okClient ⟨200, ⟨0, 0⟩⟩)).Encode
        (buildMsg (GoString.ofString "t") (GoString.ofString "c")).toJSON
      = Except.ok "payload" ∧
    (okEnv (okClient ⟨200, ⟨0, 0⟩⟩)).NewRequest "POST" badURLConf.WebhookURL "payload"
      = Except.error ⟨"parse ://hook: missing protocol scheme"⟩ ∧
    (Notify (okEnv (okClient ⟨200, ⟨0, 0⟩⟩)) badURLConf () []).retryable = true ∧
    (Notify (okEnv (okClient ⟨200, ⟨0, 0⟩⟩)) badURLConf () []).err
      = some ⟨"parse ://hook: missing protocol scheme"⟩ ∧
    (Notify (okEnv (okClient ⟨200, ⟨0, 0⟩⟩)) badURLConf () []).sendCount = 0 := by
  refine ⟨rfl, rfl, rfl, rfl, rfl, ?_, ?_, ?_⟩
  · decide
  · decide
  · decide

/-- C3: whatever each stage does, a nil error returned by `Notify` comes with
`retryable = false`. -/
theorem notify_nil_error_not_retryable {Ctx Alert TData HTTPCfg : Type}
    (env : Env Ctx Alert TData HTTPCfg) (conf : DingtalkConfig HTTPCfg) (ctx : Ctx)
    (as : List Alert) :
    (Notify env conf ctx as).err = none → (Notify env conf ctx as).retryable = false := by
  rcases hT : env.ExecuteTextString conf.Title (env.Data ctx as) with e1 | title
  · obtain ⟨e, he⟩ := notify_of_render_error env conf ctx as (Or.inl ⟨e1, hT⟩)
    rw [he]
    intro _
    rfl
  · rcases hC : env.ExecuteTextString conf.Content (env.Data ctx as) with e2 | content
    · obtain ⟨e, he⟩ := notify_of_render_error env conf ctx as (Or.inr ⟨e2, hC⟩)
      rw [he]
      intro _
      rfl
    · have hN0 := notify_of_render_ok env conf ctx as title content hT hC
      rcases hE : env.Encode (buildMsg title content).toJSON with e | buf
      · simp [hN0, hE]
      · rcases hR : env.NewRequest "POST" conf.WebhookURL buf with e | req0
        · simp [hN0, hE, hR]
        · rcases hN : env.NewClientFromConfig conf.HTTPConfig "dingtalk" with e | c
          · simp [hN0, hE, hR, hN]
          · rcases hD : c.Do ((req0.HeaderSet "Content-Type" "application/json").WithContext ctx)
              with e | resp
            · simp [hN0, hE, hR, hN, hD]
            · rw [notify_of_response env conf ctx as title content buf req0 c resp
                hT hC hE hR hN hD]
              intro h
              by_cases h2 : 200 ≤ resp.StatusCode ∧ resp.StatusCode < 300
              · show (retry conf resp.StatusCode).1 = false
                rw [retry_of_2xx conf resp.StatusCode h2]
              · have h3 : (retry conf resp.StatusCode).2 = none := h
                rw [retry_of_not_2xx conf resp.StatusCode h2] at h3
                cases h3

/-- Witness for `notify_nil_error_not_retryable`: a delivery answered with 200. -/
theorem notify_nil_error_not_retryable_witness :
    (Notify (okEnv (okClient ⟨200, ⟨0, 0⟩⟩)) sampleConf () []).err = none ∧
    (Notify (okEnv (okClient ⟨200, ⟨0, 0⟩⟩)) sampleConf () []).retryable = false :=
  ⟨by decide,
   notify_nil_error_not_retryable (okEnv (okClient ⟨200, ⟨0, 0⟩⟩)) sampleConf () []
     (by decide)⟩

/-- C4: when rendering the title or the content template fails, `Notify`
returns `(false, err)` with `err` non-nil and a message containing `title`, and
sends no HTTP request. -/
theorem notify_render_failure {Ctx Alert TData HTTPCfg : Type}
    (env : Env Ctx Alert TData HTTPCfg) (conf : DingtalkConfig HTTPCfg) (ctx : Ctx)
    (as : List Alert)
    (h : (∃ e, env.ExecuteTextString conf.Title (env.Data ctx as) = Except.error e) ∨
         (∃ e, env.ExecuteTextString conf.Content (env.Data ctx as) = Except.error e)) :
    (Notify env conf ctx as).retryable = false ∧
    (∃ err, (Notify env conf ctx as).err = some err ∧ Contains err.msg "title") ∧
    (Notify env conf ctx as).sendCount = 0 := by
  obtain ⟨e, he⟩ := notify_of_render_error env conf ctx as h
  rw [he]
  exact ⟨rfl, ⟨_, rfl, contains_title e.msg⟩, rfl⟩

/-- Witness for `notify_render_failure`: a template engine that rejects the
title template. -/
theorem notify_render_failure_witness :
    (Notify renderFailEnv sampleConf () []).retryable = false ∧
    (∃ err, (Notify renderFailEnv sampleConf () []).err = some err ∧
      Contains err.msg "title") ∧
    (Notify renderFailEnv sampleConf () []).sendCount = 0 :=
  notify_render_failure renderFailEnv sampleConf () [] (Or.inl ⟨⟨"unexpected EOF"⟩, rfl⟩)

/-- C5: when every stage before the send succeeds and `client.Do` returns an
error, `Notify` returns `retryable = true` together with that error. -/
theorem notify_send_failure {Ctx Alert TData HTTPCfg : Type}
    (env : Env Ctx Alert TData HTTPCfg) (conf : DingtalkConfig HTTPCfg) (ctx : Ctx)
    (as : List Alert) (title content : GoString) (buf : String) (req0 : Request Ctx) (c : Client Ctx)
    (e : GoError)
    (hT : env.ExecuteTextString conf.Title (env.Data ctx as) = Except.ok title)
    (hC : env.ExecuteTextString conf.Content (env.Data ctx as) = Except.ok content)
    (hE : env.Encode (buildMsg title content).toJSON = Except.ok buf)
    (hR : env.NewRequest "POST" conf.WebhookURL buf = Except.ok req0)
    (hN : env.NewClientFromConfig conf.HTTPConfig "dingtalk" = Except.ok c)
    (hD : c.Do ((req0.HeaderSet "Content-Type" "application/json").WithContext ctx)
            = Except.error e) :
    (Notify env conf ctx as).retryable = true ∧ (Notify env conf ctx as).err = some e := by
  rw [notify_of_render_ok env conf ctx as title content hT hC]
  simp [hE, hR, hN, hD]

/-- Witness for `notify_send_failure`: a client that refuses the connection. -/
theorem notify_send_failure_witness :
    (Notify (okEnv (failClient ⟨"connection refused"⟩)) sampleConf () []).retryable = true ∧
    (Notify (okEnv (failClient ⟨"connection refused"⟩)) sampleConf () []).err
      = some ⟨"connection refused"⟩ :=
  notify_send_failure (okEnv (failClient ⟨"connection refused"⟩)) sampleConf () []
    (GoString.ofString "t") (GoString.ofString "c") "payload" ⟨"POST", "http://hook", "payload", [], none⟩
    (failClient ⟨"connection refused"⟩) ⟨"connection refused"⟩ rfl rfl rfl rfl rfl rfl

/-- C6: when every stage succeeds and the response carries status code `c`,
`Notify` returns exactly `retry c`; 200 gives `(false, nil)`, 503 gives `true`
with an error mentioning `503`, 404 gives `false` with an error mentioning
`404`. -/
theorem notify_returns_retry {Ctx Alert TData HTTPCfg : Type}
    (env : Env Ctx Alert TData HTTPCfg) (conf : DingtalkConfig HTTPCfg) (ctx : Ctx)
    (as : List Alert) (title content : GoString) (buf : String) (req0 : Request Ctx) (c : Client Ctx)
    (resp : Response)
    (hT : env.ExecuteTextString conf.Title (env.Data ctx as) = Except.ok title)
    (hC : env.ExecuteTextString conf.Content (env.Data ctx as) = Except.ok content)
    (hE : env.Encode (buildMsg title content).toJSON = Except.ok buf)
    (hR : env.NewRequest "POST" conf.WebhookURL buf = Except.ok req0)
    (hN : env.NewClientFromConfig conf.HTTPConfig "dingtalk" = Except.ok c)
    (hD : c.Do ((req0.HeaderSet "Content-Type" "application/json").WithContext ctx)
            = Except.ok resp) :
    ((Notify env conf ctx as).retryable, (Notify env conf ctx as).err)
      = retry conf resp.StatusCode ∧
    (resp.StatusCode = 200 →
      (Notify env conf ctx as).retryable = false ∧ (Notify env conf ctx as).err = none) ∧
    (resp.StatusCode = 503 →
      (Notify env conf ctx as).retryable = true ∧
      ∃ err, (Notify env conf ctx as).err = some err ∧ Contains err.msg "503") ∧
    (resp.StatusCode = 404 →
      (Notify env conf ctx as).retryable = false ∧
      ∃ err, (Notify env conf ctx as).err = some err ∧ Contains err.msg "404") := by
  rw [notify_of_response env conf ctx as title content buf req0 c resp hT hC hE hR hN hD]
  refine ⟨rfl, ?_, ?_, ?_⟩
  · intro hs
    rw [hs, retry_of_2xx conf 200 (by decide)]
    exact ⟨rfl, rfl⟩
  · intro hs
    rw [hs, retry_of_not_2xx conf 503 (by decide)]
    exact ⟨by simp, _, rfl,
      (contains_code_and_url "unexpected status code " "503" " from " conf.WebhookURL).1⟩
  · intro hs
    rw [hs, retry_of_not_2xx conf 404 (by decide)]
    exact ⟨by simp, _, rfl,
      (contains_code_and_url "unexpected status code " "404" " from " conf.WebhookURL).1⟩

/-- Witness for `notify_returns_retry`: a webhook answering 503. -/
theorem notify_returns_retry_witness :
    (Notify (okEnv (okClient ⟨503, ⟨0, 0⟩⟩)) sampleConf () []).retryable = true ∧
    ∃ err, (Notify (okEnv (okClient ⟨503, ⟨0, 0⟩⟩)) sampleConf () []).err = some err ∧
      Contains err.msg "503" :=
  (notify_returns_retry (okEnv (okClient ⟨503, ⟨0, 0⟩⟩)) sampleConf () []
    (GoString.ofString "t") (GoString.ofString "c") "payload" ⟨"POST", "http://hook", "payload", [], none⟩
    (okClient ⟨503, ⟨0, 0⟩⟩) ⟨503, ⟨0, 0⟩⟩ rfl rfl rfl rfl rfl rfl).2.2.1 rfl

/-- C7: for every status code `c` outside `[200, 300)` and every webhook URL,
the error of `retry c` has exactly the message
`"unexpected status code " ++ decimal c ++ " from " ++ url`, which contains
both the code and the URL. -/
theorem retry_error_message {HTTPCfg : Type} (conf : DingtalkConfig HTTPCfg) (c : Int)
    (h : ¬ (200 ≤ c ∧ c < 300)) :
    (retry conf c).2
      = some ⟨"unexpected status code " ++ toString c ++ " from " ++ conf.WebhookURL⟩ ∧
    (∃ err, (retry conf c).2 = some err ∧ Contains err.msg (toString c) ∧
      Contains err.msg conf.WebhookURL) := by
  rw [retry_of_not_2xx conf c h]
  exact ⟨rfl, _, rfl, contains_code_and_url _ (toString c) _ _⟩

/-- Witness for `retry_error_message`: status 404 at the sample webhook. -/
theorem retry_error_message_witness :
    (retry sampleConf 404).2 = some ⟨"unexpected status code 404 from http://hook"⟩ ∧
    (∃ err, (retry sampleConf 404).2 = some err ∧ Contains err.msg "404" ∧
      Contains err.msg "http://hook") :=
  retry_error_message sampleConf 404 (by decide)

/-- C8 fails as stated: the title template `{{ "\xff" }}` renders the byte
0xFF, and the payload built from it carries the title value U+FFFD, whose bytes
are EF BF BD and not the rendered 0xFF; the call itself succeeds and posts that
payload. -/
theorem invalid_utf8_title_not_kept :
    (tmplText (okEnv (okClient ⟨200, ⟨0, 0⟩⟩)).ExecuteTextString () none
        invalidTitleConf.Title) = (⟨[0xFF]⟩, none) ∧
    (buildMsg ⟨[0xFF]⟩ (GoString.ofString "c")).toJSON
      = JSON.obj [("msgtype", JSON.str "markdown"),
                  ("markdown", JSON.obj [("title", JSON.str "\uFFFD"),
                                         ("text", JSON.str "c")])] ∧
    GoString.ofString "\uFFFD" = ⟨[0xEF, 0xBF, 0xBD]⟩ ∧
    ¬ (GoString.ofString "\uFFFD" = ⟨[0xFF]⟩) ∧
    (Notify (okEnv (okClient ⟨200, ⟨0, 0⟩⟩)) invalidTitleConf () []).err = none ∧
    (Notify (okEnv (okClient ⟨200, ⟨0, 0⟩⟩)) invalidTitleConf () []).sendCount = 1 := by
  refine ⟨rfl, rfl, ?_, ?_, ?_, ?_⟩
  · decide
  · decide
  · decide
  · decide

/-- C8, amended: for every rendered title `T` and body `B`, the value `Notify`
hands to the JSON writer, and whose bytes it posts, is an object with exactly
the keys `msgtype` (value `markdown`) and `markdown`, the latter an object with
exactly the keys `title` and `text`; their values are `T` and `B` with every
byte outside a valid UTF-8 encoding replaced by U+FFFD, so `T` and `B`
themselves when these are valid UTF-8; empty strings remove no key. -/
theorem notify_payload_json {Ctx Alert TData HTTPCfg : Type}
    (env : Env Ctx Alert TData HTTPCfg) (conf : DingtalkConfig HTTPCfg) (ctx : Ctx)
    (as : List Alert) (T B : GoString)
    (hT : env.ExecuteTextString conf.Title (env.Data ctx as) = Except.ok T)
    (hC : env.ExecuteTextString conf.Content (env.Data ctx as) = Except.ok B) :
    (buildMsg T B).toJSON
      = JSON.obj [("msgtype", JSON.str "markdown"),
            ("markdown", JSON.obj [("title", JSON.str T.toValidUTF8),
                                   ("text", JSON.str B.toValidUTF8)])] ∧
    (buildMsg ⟨[]⟩ ⟨[]⟩).toJSON
      = JSON.obj [("msgtype", JSON.str "markdown"),
            ("markdown", JSON.obj [("title", JSON.str ""), ("text", JSON.str "")])] ∧
    (∀ e, env.Encode (JSON.obj [("msgtype", JSON.str "markdown"),
            ("markdown", JSON.obj [("title", JSON.str T.toValidUTF8),
                                   ("text", JSON.str B.toValidUTF8)])]) = Except.error e →
      (Notify env conf ctx as).err = some e ∧ (Notify env conf ctx as).sendCount = 0) ∧
    (∀ buf req0 c resp,
      env.Encode (JSON.obj [("msgtype", JSON.str "markdown"),
            ("markdown", JSON.obj [("title", JSON.str T.toValidUTF8),
                                   ("text", JSON.str B.toValidUTF8)])]) = Except.ok buf →
      env.NewRequest "POST" conf.WebhookURL buf = Except.ok req0 →
      env.NewClientFromConfig conf.HTTPConfig "dingtalk" = Except.ok c →
      c.Do ((req0.HeaderSet "Content-Type" "application/json").WithContext ctx)
        = Except.ok resp →
      (Notify env conf ctx as).trace
        = [Effect.Send ((req0.HeaderSet "Content-Type" "application/json").WithContext ctx),
           Effect.BodyClose]) ∧
    (JSON.obj [("msgtype", JSON.str "markdown"),
            ("markdown", JSON.obj [("title", JSON.str T.toValidUTF8),
                                   ("text", JSON.str B.toValidUTF8)])]).keys
      = ["msgtype", "markdown"] ∧
    (JSON.obj [("title", JSON.str T.toValidUTF8), ("text", JSON.str B.toValidUTF8)]).keys
      = ["title", "text"] ∧
    (∀ s : String, T = GoString.ofString s → T.toValidUTF8 = s) ∧
    (∀ s : String, B = GoString.ofString s → B.toValidUTF8 = s) := by
  have hJ : (buildMsg T B).toJSON
      = JSON.obj [("msgtype", JSON.str "markdown"),
          ("markdown", JSON.obj [("title", JSON.str T.toValidUTF8),
                                 ("text", JSON.str B.toValidUTF8)])] := rfl
  have hN := notify_of_render_ok env conf ctx as T B hT hC
  rw [hJ] at hN
  refine ⟨rfl, rfl, ?_, ?_, rfl, rfl, ?_, ?_⟩
  · intro e hE
    rw [hN]
    simp [hE, Outcome.sendCount]
  · intro buf req0 c resp hE hR hC hD
    rw [hN]
    simp only [hE, hR, hC, hD]
  · intro s hs
    rw [hs, toValidUTF8_ofString]
  · intro s hs
    rw [hs, toValidUTF8_ofString]

/-- Witness for `notify_payload_json`: the sample title and body, both valid
UTF-8, reach the request as they are. -/
theorem notify_payload_json_witness :
    (Notify (okEnv (okClient ⟨200, ⟨0, 0⟩⟩)) sampleConf () []).trace
      = [Effect.Send ⟨"POST", "http://hook", "payload",
            [("Content-Type", "application/json")], some ()⟩,
         Effect.BodyClose] ∧
    (GoString.ofString "t").toValidUTF8 = "t" ∧
    (GoString.ofString "c").toValidUTF8 = "c" :=
  have h := notify_payload_json (okEnv (okClient ⟨200, ⟨0, 0⟩⟩)) sampleConf () []
    (GoString.ofString "t") (GoString.ofString "c") rfl rfl
  ⟨h.2.2.2.1 "payload" ⟨"POST", "http://hook", "payload", [], none⟩
      (okClient ⟨200, ⟨0, 0⟩⟩) ⟨200, ⟨0, 0⟩⟩ rfl rfl rfl rfl,
   h.2.2.2.2.2.2.1 "t" rfl, h.2.2.2.2.2.2.2 "c" rfl⟩

/-- C9: when the HTTP round trip succeeds, the response body is closed exactly
once before `Notify` returns, whatever verdict the status code leads to: the
effects of the call are the send followed by one `Close`. -/
theorem notify_closes_body_once {Ctx Alert TData HTTPCfg : Type}
    (env : Env Ctx Alert TData HTTPCfg) (conf : DingtalkConfig HTTPCfg) (ctx : Ctx)
    (as : List Alert) (title content : GoString) (buf : String) (req0 : Request Ctx) (c : Client Ctx)
    (resp : Response)
    (hT : env.ExecuteTextString conf.Title (env.Data ctx as) = Except.ok title)
    (hC : env.ExecuteTextString conf.Content (env.Data ctx as) = Except.ok content)
    (hE : env.Encode (buildMsg title content).toJSON = Except.ok buf)
    (hR : env.NewRequest "POST" conf.WebhookURL buf = Except.ok req0)
    (hN : env.NewClientFromConfig conf.HTTPConfig "dingtalk" = Except.ok c)
    (hD : c.Do ((req0.HeaderSet "Content-Type" "application/json").WithContext ctx)
            = Except.ok resp) :
    (Notify env conf ctx as).trace
      = [Effect.Send ((req0.HeaderSet "Content-Type" "application/json").WithContext ctx),
         Effect.BodyClose] ∧
    (Notify env conf ctx as).closeCount = 1 ∧
    (resp.Body.run (Notify env conf ctx as).trace).closed = resp.Body.closed + 1 := by
  rw [notify_of_response env conf ctx as title content buf req0 c resp hT hC hE hR hN hD]
  exact ⟨rfl, rfl, rfl⟩

/-- Witness for `notify_closes_body_once`: a webhook answering 404 with a fresh
body. -/
theorem notify_closes_body_once_witness :
    (Notify (okEnv (okClient ⟨404, ⟨3, 0⟩⟩)) sampleConf () []).closeCount = 1 ∧
    (Body.run ⟨3, 0⟩ (Notify (okEnv (okClient ⟨404, ⟨3, 0⟩⟩)) sampleConf () []).trace).closed
      = 1 :=
  (notify_closes_body_once (okEnv (okClient ⟨404, ⟨3, 0⟩⟩)) sampleConf () []
    (GoString.ofString "t") (GoString.ofString "c") "payload" ⟨"POST", "http://hook", "payload", [], none⟩
    (okClient ⟨404, ⟨3, 0⟩⟩) ⟨404, ⟨3, 0⟩⟩ rfl rfl rfl rfl rfl rfl).2

/-- C10 fails as stated: a round trip that succeeds with five unread body bytes
ends with those five bytes still unread; the call performs no read at all. -/
theorem body_left_undrained :
    (okClient ⟨200, ⟨5, 0⟩⟩).Do
        ((Request.HeaderSet ⟨"POST", "http://hook", "payload", [], none⟩
            "Content-Type" "application/json").WithContext ())
      = Except.ok ⟨200, ⟨5, 0⟩⟩ ∧
    ¬ ((Body.run ⟨5, 0⟩
          (Notify (okEnv (okClient ⟨200, ⟨5, 0⟩⟩)) sampleConf () []).trace).unread = 0) ∧
    ((Notify (okEnv (okClient ⟨200, ⟨5, 0⟩⟩)) sampleConf () []).trace.filter
        Effect.isRead).length = 0 := by
  refine ⟨rfl, ?_, ?_⟩
  · decide
  · decide

/-- C10, amended: when the HTTP round trip succeeds, the response body is
released by `Close` before `Notify` returns, whatever the classification; it is
not read, so what was unread stays unread. -/
theorem notify_closes_body_unread {Ctx Alert TData HTTPCfg : Type}
    (env : Env Ctx Alert TData HTTPCfg) (conf : DingtalkConfig HTTPCfg) (ctx : Ctx)
    (as : List Alert) (title content : GoString) (buf : String) (req0 : Request Ctx) (c : Client Ctx)
    (resp : Response)
    (hT : env.ExecuteTextString conf.Title (env.Data ctx as) = Except.ok title)
    (hC : env.ExecuteTextString conf.Content (env.Data ctx as) = Except.ok content)
    (hE : env.Encode (buildMsg title content).toJSON = Except.ok buf)
    (hR : env.NewRequest "POST" conf.WebhookURL buf = Except.ok req0)
    (hN : env.NewClientFromConfig conf.HTTPConfig "dingtalk" = Except.ok c)
    (hD : c.Do ((req0.HeaderSet "Content-Type" "application/json").WithContext ctx)
            = Except.ok resp) :
    ((Notify env conf ctx as).trace.filter Effect.isRead).length = 0 ∧
    (resp.Body.run (Notify env conf ctx as).trace).unread = resp.Body.unread ∧
    1 ≤ (resp.Body.run (Notify env conf ctx as).trace).closed := by
  rw [notify_of_response env conf ctx as title content buf req0 c resp hT hC hE hR hN hD]
  exact ⟨rfl, rfl, Nat.le_add_left 1 resp.Body.closed⟩

/-- Witness for `notify_closes_body_unread`: a webhook answering 200 with a
seven-byte body. -/
theorem notify_closes_body_unread_witness :
    ((Notify (okEnv (okClient ⟨200, ⟨7, 0⟩⟩)) sampleConf () []).trace.filter
        Effect.isRead).length = 0 ∧
    (Body.run ⟨7, 0⟩ (Notify (okEnv (okClient ⟨200, ⟨7, 0⟩⟩)) sampleConf () []).trace).unread
      = 7 ∧
    1 ≤ (Body.run ⟨7, 0⟩
          (Notify (okEnv (okClient ⟨200, ⟨7, 0⟩⟩)) sampleConf () []).trace).closed :=
  notify_closes_body_unread (okEnv (okClient ⟨200, ⟨7, 0⟩⟩)) sampleConf () []
    (GoString.ofString "t") (GoString.ofString "c") "payload" ⟨"POST", "http://hook", "payload", [], none⟩
    (okClient ⟨200, ⟨7, 0⟩⟩) ⟨200, ⟨7, 0⟩⟩ rfl rfl rfl rfl rfl rfl

end Dingtalk
